import Mathlib

/-!
Verification of the PraisonAIBench composite evaluation engine against its
natural-language specification.

The development shallowly embeds the scoring code of
`src/praisonaibench/simple_evaluator.py` and `src/praisonaibench/evaluator.py`
as executable Lean functions over `List Char` / `String`, `Nat`, `Int` and `ℚ`
(Python floats on these code paths hold small decimal constants and sums of
them, so exact rational arithmetic models them; the single place where binary
floating point can differ from exact arithmetic is noted at `pyInt`).

The hybrid composite scorer (`praisonaibench/hybrid_evaluator.py`) is not part
of the source tree; only its test suite (`tests/test_hybrid_evaluator.py`)
ships with the repository.  Definitions for it are modelled from the
specification and are marked `Modelled from the spec:` in their doc comments.
-/

namespace PraisonBench

/-! ## Generic character/string scanning helpers

These mirror the semantics of the concrete `re` patterns used by the Python
sources.  All inputs of interest are ASCII; `Char.isAlphanum` plays the role
of `\w` (letters and digits) together with `'_'`. -/

/-- Characters treated as whitespace by Python's `str.strip()` / `\s`
(ASCII subset, which covers every input the sources handle). -/
def isWS (c : Char) : Bool :=
  c == ' ' || c == '\t' || c == '\n' || c == '\r' || c == '\x0b' || c == '\x0c'

/-- The `\w` character class: letters, digits and underscore. -/
def isWordChar (c : Char) : Bool := c.isAlphanum || c == '_'

/-- Case-insensitive prefix test (a literal matched under `re.IGNORECASE`). -/
def ciPrefixOf : List Char → List Char → Bool
  | [], _ => true
  | _ :: _, [] => false
  | a :: as, b :: bs => (a.toLower == b.toLower) && ciPrefixOf as bs

/-- Case-insensitive substring test. -/
def containsSubCI (needle : List Char) : List Char → Bool
  | [] => needle.isEmpty
  | c :: t => ciPrefixOf needle (c :: t) || containsSubCI needle t

/-- Case-sensitive substring test. -/
def containsSubCS (needle : List Char) : List Char → Bool
  | [] => needle.isEmpty
  | c :: t => List.isPrefixOf needle (c :: t) || containsSubCS needle t

/-- Count of non-overlapping case-insensitive occurrences (as `re.findall`
counts matches of a plain literal under `re.IGNORECASE`).  The fuel argument
starts at the haystack length, which bounds the recursion. -/
def countSubCIAux (needle : List Char) : Nat → List Char → Nat
  | 0, _ => 0
  | _, [] => 0
  | fuel + 1, c :: t =>
    if ciPrefixOf needle (c :: t) then
      1 + countSubCIAux needle fuel (List.drop (needle.length - 1) t)
    else countSubCIAux needle fuel t

def countSubCI (needle hay : List Char) : Nat := countSubCIAux needle hay.length hay

/-- Count of non-overlapping case-sensitive occurrences (Python `str.count`). -/
def countSubCSAux (needle : List Char) : Nat → List Char → Nat
  | 0, _ => 0
  | _, [] => 0
  | fuel + 1, c :: t =>
    if List.isPrefixOf needle (c :: t) then
      1 + countSubCSAux needle fuel (List.drop (needle.length - 1) t)
    else countSubCSAux needle fuel t

def countSubCS (needle hay : List Char) : Nat := countSubCSAux needle hay.length hay

/-- Scan for a case-insensitive occurrence of `needle` whose following suffix
satisfies `cond` (the shape of every `needle-then-tail-pattern` regex search
in the sources, with leftmost-scan plus bump-along on failure). -/
def scanForCI (needle : List Char) (cond : List Char → Bool) : List Char → Bool
  | [] => false
  | c :: t =>
    (ciPrefixOf needle (c :: t) && cond (List.drop needle.length (c :: t))) ||
      scanForCI needle cond t

/-- Split at the first case-insensitive occurrence of `needle`, returning the
part before it and the part after it (the lazy `(.*?)needle` idiom). -/
def splitAtSubCI (needle : List Char) : List Char → Option (List Char × List Char)
  | [] => none
  | c :: t =>
    if ciPrefixOf needle (c :: t) then some ([], List.drop needle.length (c :: t))
    else
      match splitAtSubCI needle t with
      | some (pre, post) => some (c :: pre, post)
      | none => none

/-- Split at the first case-sensitive occurrence of `needle`. -/
def splitAtSubCS (needle : List Char) : List Char → Option (List Char × List Char)
  | [] => none
  | c :: t =>
    if List.isPrefixOf needle (c :: t) then some ([], List.drop needle.length (c :: t))
    else
      match splitAtSubCS needle t with
      | some (pre, post) => some (c :: pre, post)
      | none => none

/-- Python `str.strip()`: drop whitespace from both ends. -/
def pyStrip (l : List Char) : List Char :=
  ((l.dropWhile isWS).reverse.dropWhile isWS).reverse

/-! ## `simple_evaluator.py`: `SimpleEvaluator` (the rendering validator)

The injected rendering capability is passed in explicitly: `Except.ok o`
models a successful browser session producing outcome `o`, while
`Except.error e` models the capability raising an exception with message `e`
(the `except Exception` branch of `SimpleEvaluator.evaluate`). -/

/-- What a successful browser session reports back (console capture, timing,
screenshot); mirrors the data `SimpleEvaluator.evaluate` reads off the page. -/
structure RenderOutcome where
  console_errors : List String
  console_warnings : List String
  elapsed_ms : ℚ

/-- The result dictionary built by `SimpleEvaluator.evaluate`
(the `feedback` entries, which only echo these fields for display,
are not modelled). -/
structure SimpleResult where
  score : ℕ
  passed : Bool
  renders : Bool
  errors : List String
  warnings : List String
  screenshot : Option String
  render_time_ms : ℚ

/-- Embeds `SimpleEvaluator._calculate_score`: 50 for rendering, 30/15/0 by
console-error count, and a speed bonus that is only awarded when a positive
render time was recorded, capped at 100. -/
def calculate_score (r : SimpleResult) : ℕ :=
  let s1 : ℕ := if r.renders then 50 else 0
  let s2 : ℕ :=
    if r.errors.length = 0 then 30
    else if r.errors.length ≤ 2 then 15
    else 0
  let s3 : ℕ :=
    if 0 < r.render_time_ms then
      if r.render_time_ms < 1000 then 20
      else if r.render_time_ms < 3000 then 10
      else 0
    else 0
  min (s1 + s2 + s3) 100

/-- Embeds `SimpleEvaluator.evaluate`.  On `Except.ok` the result fields are
updated from the browser outcome; on `Except.error e` the initial result keeps
`renders = false` and gains the single entry `"Browser error: " ++ e`.  Either
way the score, pass flag and feedback are then computed. -/
def simple_evaluate (cap : Except String RenderOutcome) (test_name : String) :
    SimpleResult :=
  let base : SimpleResult :=
    { score := 0, passed := false, renders := false, errors := [], warnings := [],
      screenshot := none, render_time_ms := 0 }
  let r : SimpleResult :=
    match cap with
    | Except.ok o =>
        { base with
          renders := true
          errors := o.console_errors
          warnings := o.console_warnings
          screenshot := some ("output/screenshots/" ++ test_name ++ ".png")
          render_time_ms := o.elapsed_ms }
    | Except.error e => { base with errors := ["Browser error: " ++ e] }
  let sc := calculate_score r
  { r with score := sc, passed := decide (70 ≤ sc) }

/-! ## `simple_evaluator.py`: `CombinedEvaluator` -/

/-- An `LLMJudge.evaluate` result (`quality_score`, `feedback`).  The judge
call itself (a network interaction) is out of scope; its result is an input. -/
structure JudgeResult where
  quality_score : ℤ
  feedback : String

/-- The dictionary returned by `CombinedEvaluator.evaluate`. -/
structure CombinedResult where
  test_name : String
  functional : SimpleResult
  quality : Option JudgeResult
  overall_score : ℤ
  passed : Bool

/-- Python `int(...)` on a real value: truncation toward zero.  The source
computes `int(score*0.7 + quality*0.3)` in binary floating point, which can
differ from this exact rational truncation by one on inputs where the exact
value is an integer (e.g. `90*0.7` evaluates to `62.999…` as a float); no
claim under verification depends on that last unit, since the pass flag is
compared against whatever integer the program itself computed. -/
def pyInt (q : ℚ) : ℤ := if 0 ≤ q then ⌊q⌋ else ⌈q⌉

/-- Embeds `CombinedEvaluator.evaluate`.  `use_llm_judge` mirrors the
constructor flag; the judge result is injected.  With a judge and a non-empty
prompt the overall score is the 70/30 blend and the pass flag is recomputed;
otherwise both are taken from the functional result. -/
def combined_evaluate (use_llm_judge : Bool) (judge : JudgeResult)
    (cap : Except String RenderOutcome) (test_name prompt : String) :
    CombinedResult :=
  let f := simple_evaluate cap test_name
  let base : CombinedResult :=
    { test_name := test_name, functional := f, quality := none,
      overall_score := (f.score : ℤ), passed := f.passed }
  if use_llm_judge && prompt != "" then
    let ov := pyInt ((f.score : ℚ) * (7 / 10) + (judge.quality_score : ℚ) * (3 / 10))
    { base with quality := some judge, overall_score := ov, passed := decide (70 ≤ ov) }
  else base

/-! ## `evaluator.py`: `HTMLCodeEvaluator` pattern checks

The structure checks run under `re.IGNORECASE`, modelled by the
case-insensitive scanners.  The tag-name patterns (`\w+`) match both cases and
the extracted names are lowercased exactly where the Python code lowercases
them. -/

/-- `<!DOCTYPE\s+html>` under `IGNORECASE`: the literal `<!doctype`, one or
more whitespace characters, then `html>`. -/
def hasDoctype (h : List Char) : Bool :=
  scanForCI "<!doctype".toList
    (fun rest =>
      !(rest.takeWhile isWS).isEmpty && ciPrefixOf "html>".toList (rest.dropWhile isWS))
    h

/-- `<NAME[^>]*>` under `IGNORECASE`: the literal `<NAME` with some `>`
after it (the first such `>` closes the tag). -/
def hasOpenTag (name : String) (h : List Char) : Bool :=
  scanForCI ("<" ++ name).toList (fun rest => rest.any (fun c => c == '>')) h

/-- `<title[^>]*>.*?</title>` under `IGNORECASE | DOTALL`. -/
def hasTitleTag (h : List Char) : Bool :=
  scanForCI "<title".toList
    (fun rest =>
      match rest.dropWhile (fun c => c != '>') with
      | [] => false
      | _ :: after => containsSubCI "</title>".toList after)
    h

/-- `</html>` under `IGNORECASE`. -/
def hasClosingHtml (h : List Char) : Bool := containsSubCI "</html>".toList h

/-- `<meta[^>]*charset[^>]*>` under `IGNORECASE`: a `<meta` whose attribute
region (before the first `>`) contains `charset`, closed by some `>`. -/
def hasMetaCharset (h : List Char) : Bool :=
  scanForCI "<meta".toList
    (fun rest =>
      containsSubCI "charset".toList (rest.takeWhile (fun c => c != '>')) &&
        rest.any (fun c => c == '>'))
    h

/-- The check list of `HTMLCodeEvaluator._check_html_structure`, in source
order with the source's point values. -/
def structureChecks : List ((List Char → Bool) × ℚ) :=
  [(hasDoctype, 20), (hasOpenTag "html", 15), (hasOpenTag "head", 15),
   (hasOpenTag "body", 15), (hasTitleTag, 15), (hasClosingHtml, 20)]

/-- Embeds `HTMLCodeEvaluator._check_html_structure`: sum the points of the
patterns that match. -/
def check_html_structure (h : List Char) : ℚ :=
  structureChecks.foldl (fun acc pc => if pc.1 h then acc + pc.2 else acc) 0

/-- `re.findall(r'<(\w+)[^>]*>', html)`: names of opening tags in scan order.
The fuel starts at the list length; every recursive call is on a strictly
shorter list, so the fuel never runs out and the scan is exact. -/
def findOpenTagsAux : Nat → List Char → List (List Char)
  | 0, _ => []
  | _, [] => []
  | fuel + 1, c :: t =>
    if c == '<' then
      let name := t.takeWhile isWordChar
      if name.isEmpty then findOpenTagsAux fuel t
      else
        match (t.drop name.length).dropWhile (fun d => d != '>') with
        | [] => findOpenTagsAux fuel t
        | _ :: after => name :: findOpenTagsAux fuel after
    else findOpenTagsAux fuel t

def findOpenTags (h : List Char) : List (List Char) := findOpenTagsAux h.length h

/-- `re.findall(r'</(\w+)>', html)`: names of closing tags (this pattern
admits no attributes). -/
def findCloseTagsAux : Nat → List Char → List (List Char)
  | 0, _ => []
  | _, [] => []
  | fuel + 1, c :: t =>
    if c == '<' then
      match t with
      | '/' :: t2 =>
        let name := t2.takeWhile isWordChar
        if name.isEmpty then findCloseTagsAux fuel t
        else
          match t2.drop name.length with
          | '>' :: after => name :: findCloseTagsAux fuel after
          | _ => findCloseTagsAux fuel t
      | _ => findCloseTagsAux fuel t
    else findCloseTagsAux fuel t

def findCloseTags (h : List Char) : List (List Char) := findCloseTagsAux h.length h

/-- `re.finditer(r'<(/?)(\w+)[^>]*>', html)` for `_validate_html_syntax`:
each tag as (is-closing, name). -/
def findAllTagsAux : Nat → List Char → List (Bool × List Char)
  | 0, _ => []
  | _, [] => []
  | fuel + 1, c :: t =>
    if c == '<' then
      let p : Bool × List Char :=
        match t with
        | '/' :: t2 => (true, t2)
        | _ => (false, t)
      let name := p.2.takeWhile isWordChar
      if name.isEmpty then findAllTagsAux fuel t
      else
        match (p.2.drop name.length).dropWhile (fun d => d != '>') with
        | [] => findAllTagsAux fuel t
        | _ :: after => (p.1, name) :: findAllTagsAux fuel after
    else findAllTagsAux fuel t

def findAllTags (h : List Char) : List (Bool × List Char) := findAllTagsAux h.length h

/-- The self-closing exemption list of `_validate_html_syntax`
(note: it includes `source`, unlike the list in `_check_required_elements`). -/
def selfClosingSyntax : List String := ["meta", "link", "img", "br", "hr", "input", "source"]

/-- The self-closing exemption list of `_check_required_elements`. -/
def selfClosingReq : List String := ["meta", "link", "img", "br", "hr", "input"]

/-- One step of the tag stack of `_validate_html_syntax`.  The stack grows at
the head (Python appends and pops at the tail); errors accumulate in scan
order. -/
def validateStep (st : List String × List String) (tg : Bool × List Char) :
    List String × List String :=
  let tag := String.mk (tg.2.map Char.toLower)
  if selfClosingSyntax.contains tag then st
  else if tg.1 then
    match st.1 with
    | [] => (st.1, st.2 ++ ["Closing tag </" ++ tag ++ "> without opening tag"])
    | top :: rest =>
      if top = tag then (rest, st.2)
      else (rest, st.2 ++ ["Mismatched tags: expected </" ++ top ++ ">, found </" ++ tag ++ ">"])
  else (tag :: st.1, st.2)

/-- Embeds `HTMLCodeEvaluator._validate_html_syntax`: run the stack over all
tags; whatever is left on the stack is reported as unclosed.  Returns
(is-valid, error list). -/
def validate_html_syntax (h : List Char) : Bool × List String :=
  let r := (findAllTags h).foldl validateStep ([], [])
  let errs :=
    if r.1.isEmpty then r.2
    else r.2 ++ ["Unclosed tags: " ++ String.intercalate ", " r.1.reverse]
  (errs.isEmpty, errs)

/-- The opening-tag occurrences of `_check_required_elements` that draw a
5-point deduction: not in the self-closing list and with no closing tag of
the same (lowercased) name anywhere in the document. -/
def unclosedOpenCount (h : List Char) : ℕ :=
  (((findOpenTags h).map (fun nm => String.mk (nm.map Char.toLower))).filter
    (fun tag =>
      !(selfClosingReq.contains tag ||
        ((findCloseTags h).map (fun nm => String.mk (nm.map Char.toLower))).contains tag))).length

/-- Embeds `HTMLCodeEvaluator._check_required_elements`: start at 100, deduct
20 for a missing charset meta, then walk the opening tags deducting 5 for
each unclosed one, and floor at 0. -/
def check_required_elements (h : List Char) : ℚ :=
  let base : ℚ := if hasMetaCharset h then 100 else 100 - 20
  let closes := (findCloseTags h).map (fun nm => String.mk (nm.map Char.toLower))
  let sc :=
    ((findOpenTags h).map (fun nm => String.mk (nm.map Char.toLower))).foldl
      (fun acc tag =>
        if selfClosingReq.contains tag || closes.contains tag then acc else acc - 5)
      base
  max 0 sc

/-- `re.findall(r'<script[^>]*>(.*?)</script>', ...)` under
`IGNORECASE | DOTALL`: the script bodies, original case preserved. -/
def extractScriptsAux : Nat → List Char → List (List Char)
  | 0, _ => []
  | _, [] => []
  | fuel + 1, c :: t =>
    if ciPrefixOf "<script".toList (c :: t) then
      match (List.drop 6 t).dropWhile (fun d => d != '>') with
      | [] => extractScriptsAux fuel t
      | _ :: rest =>
        match splitAtSubCI "</script>".toList rest with
        | some (content, after) => content :: extractScriptsAux fuel after
        | none => extractScriptsAux fuel t
    else extractScriptsAux fuel t

/-- `'\n'.join(js_blocks)`. -/
def newlineJoin : List (List Char) → List Char
  | [] => []
  | b :: bs => bs.foldl (fun acc x => acc ++ '\n' :: x) b

/-- Count of matches of `console\.log\((?![^)]*//)` under `IGNORECASE`: an
occurrence of `console.log(` counts unless a `//` appears after it before the
next `)` (the negative lookahead).  A failed occurrence is re-scanned one
character later, a successful one after its end, exactly as `re.findall`
proceeds. -/
def countConsoleLogAux : Nat → List Char → Nat
  | 0, _ => 0
  | _, [] => 0
  | fuel + 1, c :: t =>
    if ciPrefixOf "console.log(".toList (c :: t) then
      let rest := List.drop 11 t
      if containsSubCS "//".toList (rest.takeWhile (fun d => d != ')')) then
        countConsoleLogAux fuel t
      else 1 + countConsoleLogAux fuel rest
    else countConsoleLogAux fuel t

/-- Whitespace then a word character: the `\s+\w+` tail of the
`(const|let)\s+\w+` pattern. -/
def wsThenWord (l : List Char) : Bool :=
  !(l.takeWhile isWS).isEmpty &&
    (match l.dropWhile isWS with
     | [] => false
     | d :: _ => isWordChar d)

/-- `re.search(r'(const|let)\s+\w+', js)` — case-sensitive (no flags in the
source). -/
def hasDeclKeyword : List Char → Bool
  | [] => false
  | c :: t =>
    (List.isPrefixOf "const".toList (c :: t) && wsThenWord (List.drop 4 t)) ||
    (List.isPrefixOf "let".toList (c :: t) && wsThenWord (List.drop 2 t)) ||
    hasDeclKeyword t

/-- Embeds `HTMLCodeEvaluator._check_javascript`: 100 when no script blocks;
otherwise capped deductions for console.log/debugger/alert and small bonuses
for modern declarations and arrow functions, clamped to [0, 100]. -/
def check_javascript (h : List Char) : ℚ :=
  let blocks := extractScriptsAux h.length h
  if blocks.isEmpty then 100
  else
    let js := newlineJoin blocks
    let nCon := countConsoleLogAux js.length js
    let nDbg := countSubCI "debugger".toList js
    let nAl := countSubCI "alert(".toList js
    let s1 : ℚ := 100 + (if 0 < nCon then (-5 : ℚ) * (min nCon 3 : ℕ) else 0)
    let s2 : ℚ := s1 + (if 0 < nDbg then (-10 : ℚ) * (min nDbg 3 : ℕ) else 0)
    let s3 : ℚ := s2 + (if 0 < nAl then (-5 : ℚ) * (min nAl 3 : ℕ) else 0)
    let s4 : ℚ := s3 + (if hasDeclKeyword js then 5 else 0)
    let s5 : ℚ := s4 + (if containsSubCS "=>".toList js then 5 else 0)
    max 0 (min 100 s5)

/-- The semantic HTML5 tags rewarded by `_check_best_practices`. -/
def semanticTags : List String := ["header", "footer", "nav", "section", "article", "aside"]

/-- Embeds `HTMLCodeEvaluator._check_best_practices`. -/
def check_best_practices (h : List Char) : ℚ :=
  let nStyle := countSubCI "style=".toList h
  let s1 : ℚ := 100 - (if 0 < nStyle then min ((nStyle : ℚ) * 2) 20 else 0)
  let s2 : ℚ :=
    s1 + (if containsSubCI "http://cdn".toList h || containsSubCI "https://cdn".toList h
          then 10 else 0)
  let s3 : ℚ :=
    semanticTags.foldl (fun acc tg => acc + (if hasOpenTag tg h then 2 else 0)) s2
  min 100 s3

/-! ## `evaluator.py`: `HTMLCodeEvaluator._extract_html` and
`QualityEvaluator._is_truncated` -/

/-- The candidate capture-start points of the `` ```html\s*\n `` opener,
in the order Python's backtracking tries them: given the text after the
`` ```html `` literal, the greedy `\s*` first consumes up to the last newline
of the whitespace run and then backs off newline by newline, so the `\n` of
the pattern is matched against each newline of the run from last to first;
each candidate body is the text after that newline (empty list when the run
contains no newline, in which case the opener cannot match here). -/
def fenceBodies (rest : List Char) : List (List Char) :=
  let w := rest.takeWhile isWS
  (((List.range w.length).filter (fun i => w.getD i ' ' == '\n')).reverse).map
    (fun j => rest.drop (j + 1))

/-- The greedy first candidate of `fenceBodies` (content after the last
newline of the whitespace run).  The truncated pattern's `(.*)` always
succeeds, so that pattern never backtracks past this candidate. -/
def fenceContentStart (rest : List Char) : Option (List Char) :=
  (fenceBodies rest).head?

/-- Try the candidate bodies in backtracking order: the first one containing
a closing `` \n``` `` wins, and the lazy `(.*?)` capture is everything before
that closer's first occurrence in it. -/
def tryCompleteBodies : List (List Char) → Option (List Char)
  | [] => none
  | b :: bs =>
    match splitAtSubCS "\n```".toList b with
    | some (content, _) => some content
    | none => tryCompleteBodies bs

/-- First match of `re.findall(r'```html\s*\n(.*?)\n```', response,
DOTALL | IGNORECASE)`: a complete fenced block of kind html.  At each
`` ```html `` occurrence the `\s*\n` opener is retried over all backtracking
positions (so `` ```html\n\n``` `` matches with an empty capture); when every
candidate fails, the scan bumps along one character as `re` does. -/
def findCompleteBlockAux : Nat → List Char → Option (List Char)
  | 0, _ => none
  | _, [] => none
  | fuel + 1, c :: t =>
    if ciPrefixOf "```html".toList (c :: t) then
      match tryCompleteBodies (fenceBodies (List.drop 6 t)) with
      | some content => some content
      | none => findCompleteBlockAux fuel t
    else findCompleteBlockAux fuel t

def findCompleteBlock (l : List Char) : Option (List Char) :=
  findCompleteBlockAux l.length l

/-- First match of `re.findall(r'```html\s*\n(.*)', response,
DOTALL | IGNORECASE)`: an opened fence of kind html, capturing everything to
the end of input. -/
def findTruncatedBlockAux : Nat → List Char → Option (List Char)
  | 0, _ => none
  | _, [] => none
  | fuel + 1, c :: t =>
    if ciPrefixOf "```html".toList (c :: t) then
      match fenceContentStart (List.drop 6 t) with
      | some body => some body
      | none => findTruncatedBlockAux fuel t
    else findTruncatedBlockAux fuel t

def findTruncatedBlock (l : List Char) : Option (List Char) :=
  findTruncatedBlockAux l.length l

/-- Whether the stripped response itself starts like an HTML document
(`startswith('<!doctype')` or `startswith('<html')` on the lowercased text). -/
def startsWithHtmlMarker (t : List Char) : Bool :=
  ciPrefixOf "<!doctype".toList t || ciPrefixOf "<html".toList t

/-- Embeds `HTMLCodeEvaluator._extract_html`: a complete fenced block first,
else an unclosed fenced block, else the whole stripped response when it starts
like an HTML document, else nothing. -/
def extract_html (response : String) : Option String :=
  let l := response.toList
  match findCompleteBlock l with
  | some c => some (String.mk (pyStrip c))
  | none =>
    match findTruncatedBlock l with
    | some c => some (String.mk (pyStrip c))
    | none =>
      let t := pyStrip l
      if startsWithHtmlMarker t then some (String.mk t) else none

/-- Embeds `QualityEvaluator._is_truncated`: odd number of ` ``` ` fences, or
`<html` without `</html>`, or no sentence/tag/brace terminator among the last
50 characters. -/
def is_truncated (response : String) : Bool :=
  let l := response.toList
  if countSubCS "```".toList l % 2 != 0 then true
  else if containsSubCS "<html".toList (l.map Char.toLower) &&
          !containsSubCS "</html>".toList (l.map Char.toLower) then true
  else
    let lastC := if 50 < l.length then l.drop (l.length - 50) else l
    !(lastC.any (fun c => c == '.' || c == '!' || c == '?' || c == '>' || c == '\x7d'))

/-! ## `evaluator.py`: `EvaluationResult` and `HTMLCodeEvaluator.evaluate` -/

/-- A recorded score: `{value, max}`; the stored percentage is derived. -/
structure EvalScore where
  value : ℚ
  max : ℚ

/-- The `EvaluationResult` container: named scores, pass flag (defaulting to
true), feedback entries as (message, severity), and the boolean metrics the
HTML evaluator records.  Feedback timestamps are display-only and elided. -/
structure EvaluationResult where
  scores : List (String × EvalScore)
  passed : Bool
  feedback : List (String × String)
  metrics : List (String × Bool)

/-- `percentage = value/max*100` when `max > 0`, else 0. -/
def percentage (s : EvalScore) : ℚ := if 0 < s.max then s.value / s.max * 100 else 0

/-- Embeds `EvaluationResult.get_overall_score`: arithmetic mean of the score
percentages, 0 when no scores were recorded. -/
def get_overall_score (r : EvaluationResult) : ℚ :=
  if r.scores.isEmpty then 0
  else ((r.scores.map (fun p => percentage p.2)).sum) / (r.scores.length : ℚ)

/-- Embeds `HTMLCodeEvaluator.evaluate`.  The source's guard is the falsy
test `if not html_content:`, which catches both an absent extraction result
(`None`) and an extracted empty string; in either case the fresh result (no
scores, `passed` still true) is returned with an info message.  Otherwise the
four checks are scored, validity is recorded, and the 60-point quality
threshold decides the pass flag.  Messages that interpolate numbers in the
source keep their constant prefix here. -/
def html_evaluate (response : String) : EvaluationResult :=
  match extract_html response with
  | none =>
    { scores := [], passed := true,
      feedback := [("No HTML code found in response", "info")], metrics := [] }
  | some html =>
    if html = "" then
      { scores := [], passed := true,
        feedback := [("No HTML code found in response", "info")], metrics := [] }
    else
    let h := html.toList
    let v := validate_html_syntax h
    let scores : List (String × EvalScore) :=
      [("html_structure", ⟨check_html_structure h, 100⟩),
       ("required_elements", ⟨check_required_elements h, 100⟩),
       ("javascript_quality", ⟨check_javascript h, 100⟩),
       ("best_practices", ⟨check_best_practices h, 100⟩)]
    let fb1 : List (String × String) :=
      if v.1 then [("✅ HTML syntax is valid", "success")]
      else ("⚠ HTML validation issues found", "warning") ::
        (v.2.take 3).map (fun e => ("  - " ++ e, "warning"))
    let base : EvaluationResult :=
      { scores := scores, passed := true, feedback := fb1,
        metrics := [("html_valid", v.1)] }
    if get_overall_score base < 60 then
      { base with
        passed := false,
        feedback := fb1 ++ [("❌ Code quality below threshold", "error")] }
    else
      { base with feedback := fb1 ++ [("✅ Code quality acceptable", "success")] }

/-! ## The hybrid composite scorer, modelled from the spec

`praisonaibench/hybrid_evaluator.py` is not part of the shipped sources (the
package `__init__` and `tests/test_hybrid_evaluator.py` reference it); the
definitions below follow spec §3 (declared weight table), §4.1
(TextSimilarityScorer) and §4.6 (weight normalization), cross-checked against
the expectations coded in `tests/test_hybrid_evaluator.py`. -/

/-- The four composite components (spec §2, §4.6). -/
inductive Component where
  | structural
  | functional
  | expected
  | judge
deriving DecidableEq, Repr

/-- Modelled from the spec: the fixed declared weight table — structural 0.15,
functional 0.40, expected 0.20, judge 0.25 (spec §3; the missing source is
`praisonaibench/hybrid_evaluator.py`). -/
def declaredWeight : Component → ℚ
  | Component.structural => 15 / 100
  | Component.functional => 40 / 100
  | Component.expected => 20 / 100
  | Component.judge => 25 / 100

/-- A run configuration: structural and functional are always present;
the expected-result component is present iff a non-empty expected value was
configured; the judge iff enabled (spec §4.6). -/
structure HybridConfig where
  hasExpected : Bool
  useJudge : Bool

/-- Modelled from the spec: the components present in a run, in the fixed
component order structural, functional, expected, judge (spec §4.6). -/
def presentComponents (cfg : HybridConfig) : List Component :=
  [Component.structural, Component.functional] ++
    (if cfg.hasExpected then [Component.expected] else []) ++
    (if cfg.useJudge then [Component.judge] else [])

/-- Modelled from the spec: `W`, the sum of declared weights of present
components (spec §4.6). -/
def weightSum (cfg : HybridConfig) : ℚ :=
  (presentComponents cfg).foldl (fun a c => a + declaredWeight c) 0

/-- Modelled from the spec: effective weight of a present component =
declared weight / W (spec §4.6). -/
def effectiveWeight (cfg : HybridConfig) (c : Component) : ℚ :=
  declaredWeight c / weightSum cfg

/-- Modelled from the spec: overall score = Σ(component_score × effective
weight) over present components (spec §4.6). -/
def hybridOverall (cfg : HybridConfig) (scores : Component → ℚ) : ℚ :=
  (presentComponents cfg).foldl (fun a c => a + scores c * effectiveWeight cfg c) 0

/-- Modelled from the spec: final `passed` = overall_score ≥ 70 (spec §4.6),
the same threshold the standalone functional check uses. -/
def hybridPassed (cfg : HybridConfig) (scores : Component → ℚ) : Bool :=
  decide (70 ≤ hybridOverall cfg scores)

/-! ### The text-similarity scorer, modelled from the spec (§4.1) -/

/-- Modelled from the spec: visible-text extraction ("strip tags") applied to
a markup artifact before comparison (spec §4.1; the hybrid
`ExpectedResultEvaluator` carrying it is absent from the sources).  Tag spans
`<...>` are dropped, text outside them kept; stripping is the identity on
tag-free text. -/
def stripTagsAux : Nat → List Char → List Char
  | 0, _ => []
  | _, [] => []
  | fuel + 1, c :: t =>
    if c == '<' then
      match t.dropWhile (fun d => d != '>') with
      | [] => []
      | _ :: after => stripTagsAux fuel after
    else c :: stripTagsAux fuel t

def stripTags (l : List Char) : List Char := stripTagsAux l.length l

/-- Collapse each maximal whitespace run to a single space
(`re.sub(r'\s+', ' ', text)`). -/
def collapseWSAux : Nat → List Char → List Char
  | 0, _ => []
  | _, [] => []
  | fuel + 1, c :: t =>
    if isWS c then ' ' :: collapseWSAux fuel (t.dropWhile isWS)
    else c :: collapseWSAux fuel t

/-- The normalization shared by the expected-result evaluators (spec §4.1 and
`ExpectedResultEvaluator._normalize_text` in `evaluator.py`): lowercase,
collapse whitespace runs, drop punctuation (non-word, non-space characters),
strip. -/
def normalize_text (l : List Char) : List Char :=
  let low := l.map Char.toLower
  let coll := collapseWSAux low.length low
  pyStrip (coll.filter (fun c => isWordChar c || isWS c))

/-- Longest-common-subsequence length; the fuel (sum of lengths) bounds the
recursion exactly. -/
def lcsLenAux : Nat → List Char → List Char → ℕ
  | 0, _, _ => 0
  | _, [], _ => 0
  | _, _ :: _, [] => 0
  | fuel + 1, a :: as, b :: bs =>
    if a == b then lcsLenAux fuel as bs + 1
    else max (lcsLenAux fuel (a :: as) bs) (lcsLenAux fuel as (b :: bs))

def lcsLen (a b : List Char) : ℕ := lcsLenAux (a.length + b.length) a b

/-- Modelled from the spec: "Similarity is a character-level
longest-common-subsequence-style ratio in [0,1] (two identical normalized
strings yield 1.0; disjoint strings near 0.0)" (spec §4.1). -/
def similarityRatio (a b : List Char) : ℚ :=
  if a.length + b.length = 0 then 1
  else 2 * (lcsLen a b : ℚ) / ((a.length : ℚ) + (b.length : ℚ))

/-- Whitespace-delimited tokens of a normalized text. -/
def splitWSAux : Nat → List Char → List (List Char)
  | 0, _ => []
  | _, [] => []
  | fuel + 1, c :: t =>
    if isWS c then splitWSAux fuel t
    else
      (c :: t).takeWhile (fun d => !isWS d) ::
        splitWSAux fuel ((c :: t).dropWhile (fun d => !isWS d))

/-- Modelled from the spec: keyword extraction keeps only whitespace-delimited
tokens over 3 characters, deduplicated (spec §4.1). -/
def keywordsOf (l : List Char) : List (List Char) :=
  ((splitWSAux l.length l).filter (fun w => 3 < w.length)).dedup

/-- Modelled from the spec: fraction of the expected text's keyword set found
as a substring of the normalized response; 1 when the keyword set is empty
(the expectation `keyword_match == 1.0` for short expected values in
`tests/test_hybrid_evaluator.py`). -/
def hybridKeywordMatch (respN expN : List Char) : ℚ :=
  let kws := keywordsOf expN
  if kws.isEmpty then 1
  else ((kws.filter (fun k => containsSubCS k respN)).length : ℚ) / (kws.length : ℚ)

/-- The hybrid expected-result record asserted by
`tests/test_hybrid_evaluator.py`: score, similarity, keyword_match,
exact_match, weight. -/
structure HybridExpectedResult where
  score : ℚ
  similarity : ℚ
  keyword_match : ℚ
  exact_match : Bool
  weight : ℚ

/-- Modelled from the spec: `evaluate(response, expected) -> EvaluationResult
| None`; returns nothing when `expected` is absent or the empty string;
strips tags from the markup artifact, normalizes both sides, and scores by
the similarity ratio with exact match at similarity 1 (spec §4.1; missing
source `praisonaibench/hybrid_evaluator.py`). -/
def hybrid_expected_evaluate (response : String) (expected : Option String) :
    Option HybridExpectedResult :=
  match expected with
  | none => none
  | some e =>
    if e = "" then none
    else
      let respN := normalize_text (stripTags response.toList)
      let expN := normalize_text e.toList
      let sim := similarityRatio respN expN
      some
        { score := sim * 100, similarity := sim,
          keyword_match := hybridKeywordMatch respN expN,
          exact_match := decide (respN = expN), weight := 20 / 100 }

/-! ## Shared helper lemmas -/

/-- Folding `(· + f ·)` over a list is the initial value plus the sum of the
mapped list. -/
theorem foldl_add_eq_sum {α : Type} (f : α → ℚ) :
    ∀ (l : List α) (init : ℚ),
      l.foldl (fun a c => a + f c) init = init + (l.map f).sum := by
  intro l
  induction l with
  | nil => intro b; simp
  | cons a t ih =>
    intro b
    simp only [List.foldl_cons, List.map_cons, List.sum_cons, ih]
    ring

/-- The deduction fold of `_check_required_elements` subtracts 5 for exactly
the occurrences kept by the corresponding filter. -/
theorem foldl_deduct (scl closes : List String) :
    ∀ (l : List String) (b : ℚ),
      l.foldl
        (fun acc tag => if scl.contains tag || closes.contains tag then acc else acc - 5) b
      = b - 5 * ((l.filter (fun tag => !(scl.contains tag || closes.contains tag))).length : ℚ) := by
  intro l
  induction l with
  | nil => intro b; simp
  | cons a t ih =>
    intro b
    rw [List.foldl_cons, List.filter_cons]
    by_cases hc : (scl.contains a || closes.contains a) = true
    · rw [if_pos hc, ih]
      have hnot : (!(scl.contains a || closes.contains a)) = false := by rw [hc]; rfl
      rw [hnot, if_neg (by simp)]
    · have hc' : (scl.contains a || closes.contains a) = false := by
        revert hc; cases scl.contains a || closes.contains a <;> simp
      have hnot : (!(scl.contains a || closes.contains a)) = true := by rw [hc']; rfl
      rw [if_neg hc, ih, hnot, if_pos rfl, List.length_cons]
      push_cast
      ring

/-- The pass flag of `SimpleEvaluator.evaluate` is exactly the 70-point
comparison on its own score. -/
theorem simple_passed_iff (cap : Except String RenderOutcome) (tn : String) :
    (simple_evaluate cap tn).passed = true ↔ 70 ≤ (simple_evaluate cap tn).score := by
  simp [simple_evaluate]

/-! ## The claims -/

/-- Claim C1: for every evaluation run of the hybrid composite scorer, the
overall score equals the sum over present components of component score times
effective weight (declared weight divided by the sum `W` of declared weights
of present components, the declared table being 0.15/0.40/0.20/0.25); with
structural, functional and judge present but no expected value the effective
weights are exactly 0.1875, 0.5 and 0.3125. -/
theorem c1_overall_is_weighted_sum :
    (∀ (cfg : HybridConfig) (scores : Component → ℚ),
        hybridOverall cfg scores =
          ((presentComponents cfg).map
            (fun c => scores c * (declaredWeight c / weightSum cfg))).sum)
  ∧ (declaredWeight Component.structural = 15 / 100
     ∧ declaredWeight Component.functional = 40 / 100
     ∧ declaredWeight Component.expected = 20 / 100
     ∧ declaredWeight Component.judge = 25 / 100)
  ∧ (effectiveWeight { hasExpected := false, useJudge := true } Component.structural = 1875 / 10000
     ∧ effectiveWeight { hasExpected := false, useJudge := true } Component.functional = 1 / 2
     ∧ effectiveWeight { hasExpected := false, useJudge := true } Component.judge = 3125 / 10000)
  ∧ (∀ scores : Component → ℚ,
        hybridOverall { hasExpected := false, useJudge := true } scores =
          scores Component.structural * (1875 / 10000)
          + scores Component.functional * (1 / 2)
          + scores Component.judge * (3125 / 10000)) := by
  refine ⟨?_, ⟨rfl, rfl, rfl, rfl⟩, ?_, ?_⟩
  · intro cfg scores
    have h := foldl_add_eq_sum
      (fun c => scores c * (declaredWeight c / weightSum cfg)) (presentComponents cfg) 0
    simpa [hybridOverall, effectiveWeight] using h
  · refine ⟨?_, ?_, ?_⟩ <;>
      norm_num [effectiveWeight, weightSum, presentComponents, declaredWeight]
  · intro scores
    simp only [hybridOverall, presentComponents, effectiveWeight, weightSum, declaredWeight,
      if_neg, if_pos, Bool.false_eq_true, not_false_eq_true, List.append_nil,
      List.nil_append, List.cons_append, List.foldl_cons, List.foldl_nil]
    norm_num

/-- Claim C2: for every subset of components containing structural and
functional (i.e. every run configuration), the effective weights of the
present components sum to exactly 1, in particular within tolerance 1e-6;
absent declared weight is redistributed by the common divisor `W`, never
dropped. -/
theorem c2_effective_weights_sum_one :
    ∀ cfg : HybridConfig,
      ((presentComponents cfg).map (effectiveWeight cfg)).sum = 1
      ∧ |((presentComponents cfg).map (effectiveWeight cfg)).sum - 1| < 1 / 1000000 := by
  intro cfg
  obtain ⟨he, uj⟩ := cfg
  have h1 : ((presentComponents ⟨he, uj⟩).map (effectiveWeight ⟨he, uj⟩)).sum = 1 := by
    cases he <;> cases uj <;>
      norm_num [presentComponents, effectiveWeight, weightSum, declaredWeight]
  refine ⟨h1, ?_⟩
  rw [h1]
  norm_num

/-- Claim C3: the final pass flag is true exactly when the overall score
reaches 70, both for the standalone functional (rendering) check
(`SimpleEvaluator`) and for the multi-component composite score
(`CombinedEvaluator`, with or without the judge component). -/
theorem c3_pass_threshold_70 :
    (∀ (cap : Except String RenderOutcome) (tn : String),
        (simple_evaluate cap tn).passed = true ↔ 70 ≤ (simple_evaluate cap tn).score)
  ∧ (∀ (uj : Bool) (j : JudgeResult) (cap : Except String RenderOutcome) (tn pr : String),
        (combined_evaluate uj j cap tn pr).passed = true ↔
          70 ≤ (combined_evaluate uj j cap tn pr).overall_score) := by
  refine ⟨simple_passed_iff, ?_⟩
  intro uj j cap tn pr
  by_cases hb : (uj && pr != "") = true
  · simp [combined_evaluate, hb]
  · have hs := simple_passed_iff cap tn
    simp only [combined_evaluate, hb, if_neg, Bool.false_eq_true, not_false_eq_true]
    rw [hs]
    constructor <;> intro hle <;> exact_mod_cast hle

/-- Claim C4 counterexample: the claim awards the 20-point speed bonus to any
render time under 1000 ms, but on a result with a recorded render time of 0
(and a successful render with no console errors) the code computes 80, not
the claimed 50 + 30 + 20 = 100, because the bonus requires a strictly
positive recorded time. -/
theorem c4_counterexample :
    calculate_score
      { score := 0, passed := false, renders := true, errors := [], warnings := [],
        screenshot := none, render_time_ms := 0 } = 80
    ∧ (80 : ℕ) ≠ 50 + 30 + 20 := by
  constructor
  · norm_num [calculate_score]
  · decide

/-- Claim C4 (amended): the rendering sub-score is 50 points for a successful
render, plus 30 points for zero console errors, 15 for 1–2 errors and 0 for
3 or more, plus a performance bonus of 20 points when a positive render time
under 1000 ms was recorded, 10 when positive and under 3000 ms, else 0 (a
recorded time of 0 earns no bonus), capped at 100; hence a document rendering
with zero console errors in a positive time under 1000 ms scores exactly 100
with `passed = true`, and one producing 3 or more console errors scores at
most 70 even if it renders. -/
theorem c4_rendering_score_formula :
    (∀ r : SimpleResult,
        calculate_score r =
          min ((if r.renders then 50 else 0) +
            (if r.errors.length = 0 then 30
             else if r.errors.length ≤ 2 then 15 else 0) +
            (if 0 < r.render_time_ms ∧ r.render_time_ms < 1000 then 20
             else if 0 < r.render_time_ms ∧ r.render_time_ms < 3000 then 10 else 0)) 100)
  ∧ (∀ (o : RenderOutcome) (tn : String), o.console_errors = [] →
        0 < o.elapsed_ms → o.elapsed_ms < 1000 →
        (simple_evaluate (Except.ok o) tn).score = 100
        ∧ (simple_evaluate (Except.ok o) tn).passed = true)
  ∧ (∀ r : SimpleResult, 3 ≤ r.errors.length → calculate_score r ≤ 70) := by
  refine ⟨?_, ?_, ?_⟩
  · intro r
    simp only [calculate_score]
    split_ifs <;> first | rfl | tauto
  · intro o tn h1 h2 h3
    constructor <;> simp [simple_evaluate, calculate_score, h1, h2, h3]
  · intro r h
    simp only [calculate_score]
    split_ifs <;> omega

/-- Claim C4 witness: the amended formula at concrete inputs — a clean render
in 500 ms scores 100 and passes; a render with three console errors scores at
most 70. -/
theorem c4_rendering_score_formula_witness :
    ((simple_evaluate (Except.ok ⟨[], [], 500⟩) "t").score = 100
      ∧ (simple_evaluate (Except.ok ⟨[], [], 500⟩) "t").passed = true)
    ∧ calculate_score
      { score := 0, passed := false, renders := true, errors := ["e1", "e2", "e3"],
        warnings := [], screenshot := none, render_time_ms := 500 } ≤ 70 :=
  ⟨c4_rendering_score_formula.2.1 ⟨[], [], 500⟩ "t" rfl (by norm_num) (by norm_num),
   c4_rendering_score_formula.2.2 _ (by decide)⟩

/-- Claim C5: when the injected rendering capability throws, the exception is
captured as the single error entry `"Browser error: …"`, the result keeps
`renders = false` and fails, and its score 15 is the worst case — no outcome
of the evaluator, exceptional or not, scores below it — so the run degrades
instead of aborting. -/
theorem c5_exception_degrades_gracefully :
    (∀ (e tn : String),
        (simple_evaluate (Except.error e) tn).errors = ["Browser error: " ++ e]
      ∧ (simple_evaluate (Except.error e) tn).renders = false
      ∧ (simple_evaluate (Except.error e) tn).score = 15
      ∧ (simple_evaluate (Except.error e) tn).passed = false)
  ∧ (∀ (cap : Except String RenderOutcome) (tn : String),
        15 ≤ (simple_evaluate cap tn).score) := by
  constructor
  · intro e tn
    refine ⟨rfl, rfl, ?_, ?_⟩ <;> simp [simple_evaluate, calculate_score]
  · intro cap tn
    cases cap with
    | error e => simp [simple_evaluate, calculate_score]
    | ok o =>
      simp only [simple_evaluate, calculate_score]
      split_ifs <;> omega

/-- Claim C6: the hybrid expected-result (text similarity) evaluator returns
nothing when the expected value is absent or the empty string, and the
expected component is then excluded from the weighted set (its weight being
redistributed through `W`) rather than scored as zero. -/
theorem c6_expected_absent_returns_none :
    (∀ response : String, hybrid_expected_evaluate response none = none)
  ∧ (∀ response : String, hybrid_expected_evaluate response (some "") = none)
  ∧ (∀ uj : Bool,
        Component.expected ∉ presentComponents { hasExpected := false, useJudge := uj }) := by
  refine ⟨fun r => rfl, fun r => by simp [hybrid_expected_evaluate], fun uj => ?_⟩
  cases uj <;> decide

/-- Claim C7: the text-match evaluator first strips tags from a markup
response, so `<body>345</body>` against expected `"345"` is an exact match
scoring 100; and `evaluate("345","345")` scores 100 with `exact_match = true`
and similarity 1. -/
theorem c7_text_match_strips_tags :
    ((hybrid_expected_evaluate "<body>345</body>" (some "345")).map
        (fun r => (r.score, r.exact_match)) = some (100, true))
  ∧ ((hybrid_expected_evaluate "345" (some "345")).map
        (fun r => (r.score, r.exact_match, r.similarity)) = some (100, true, 1)) := by
  have h1 : normalize_text (stripTags ['<', 'b', 'o', 'd', 'y', '>', '3', '4', '5',
      '<', '/', 'b', 'o', 'd', 'y', '>']) = ['3', '4', '5'] := by decide
  have h2 : normalize_text (stripTags ['3', '4', '5']) = ['3', '4', '5'] := by decide
  have h3 : normalize_text ['3', '4', '5'] = ['3', '4', '5'] := by decide
  have hsim : similarityRatio ['3', '4', '5'] ['3', '4', '5'] = 1 := by
    have hl : lcsLen ['3', '4', '5'] ['3', '4', '5'] = 3 := by decide
    simp [similarityRatio, hl]
    norm_num
  constructor
  · simp [hybrid_expected_evaluate, h1, h3, hsim]
  · simp [hybrid_expected_evaluate, h2, h3, hsim]

/-- Claim C8: the structural validator gives a complete well-formed document
(doctype, html, head, title, body, closing html) structure score 100 with an
empty issue list; in general the structure score awards 20/15/15/15/15/20
points for doctype, html, head, body, title and closing html, and the
required-elements score starts at 100, deducts 20 for a missing charset meta
and 5 per unclosed non-self-closing opening tag, floored at 0. -/
theorem c8_structural_validator :
    check_html_structure ("<!DOCTYPE html>\n<html>\n<head>\n    <title>Test Page</title>\n</head>\n<body>\n    <h1>Hello World</h1>\n</body>\n</html>").toList = 100
  ∧ validate_html_syntax ("<!DOCTYPE html>\n<html>\n<head>\n    <title>Test Page</title>\n</head>\n<body>\n    <h1>Hello World</h1>\n</body>\n</html>").toList = (true, [])
  ∧ (∀ h : List Char,
        check_html_structure h =
          (if hasDoctype h then 20 else 0) + (if hasOpenTag "html" h then 15 else 0) +
          (if hasOpenTag "head" h then 15 else 0) + (if hasOpenTag "body" h then 15 else 0) +
          (if hasTitleTag h then 15 else 0) + (if hasClosingHtml h then 20 else 0))
  ∧ (∀ h : List Char,
        check_required_elements h =
          max 0 (100 - (if hasMetaCharset h then 0 else 20) - 5 * (unclosedOpenCount h : ℚ))) := by
  have hform : ∀ h : List Char,
      check_html_structure h =
        (if hasDoctype h then 20 else 0) + (if hasOpenTag "html" h then 15 else 0) +
        (if hasOpenTag "head" h then 15 else 0) + (if hasOpenTag "body" h then 15 else 0) +
        (if hasTitleTag h then 15 else 0) + (if hasClosingHtml h then 20 else 0) := by
    intro h
    simp only [check_html_structure, structureChecks, List.foldl_cons, List.foldl_nil]
    split_ifs <;> norm_num
  refine ⟨?_, by decide, hform, ?_⟩
  · rw [hform]
    have g1 : hasDoctype ("<!DOCTYPE html>\n<html>\n<head>\n    <title>Test Page</title>\n</head>\n<body>\n    <h1>Hello World</h1>\n</body>\n</html>").toList = true := by decide
    have g2 : hasOpenTag "html" ("<!DOCTYPE html>\n<html>\n<head>\n    <title>Test Page</title>\n</head>\n<body>\n    <h1>Hello World</h1>\n</body>\n</html>").toList = true := by decide
    have g3 : hasOpenTag "head" ("<!DOCTYPE html>\n<html>\n<head>\n    <title>Test Page</title>\n</head>\n<body>\n    <h1>Hello World</h1>\n</body>\n</html>").toList = true := by decide
    have g4 : hasOpenTag "body" ("<!DOCTYPE html>\n<html>\n<head>\n    <title>Test Page</title>\n</head>\n<body>\n    <h1>Hello World</h1>\n</body>\n</html>").toList = true := by decide
    have g5 : hasTitleTag ("<!DOCTYPE html>\n<html>\n<head>\n    <title>Test Page</title>\n</head>\n<body>\n    <h1>Hello World</h1>\n</body>\n</html>").toList = true := by decide
    have g6 : hasClosingHtml ("<!DOCTYPE html>\n<html>\n<head>\n    <title>Test Page</title>\n</head>\n<body>\n    <h1>Hello World</h1>\n</body>\n</html>").toList = true := by decide
    rw [g1, g2, g3, g4, g5, g6]
    norm_num
  · intro h
    simp only [check_required_elements, unclosedOpenCount]
    rw [foldl_deduct]
    by_cases hc : hasMetaCharset h = true
    · simp [hc]
    · have hc' : hasMetaCharset h = false := by
        revert hc; cases hasMetaCharset h <;> simp
      simp only [hc', Bool.false_eq_true, if_neg, not_false_eq_true]

/-- Claim C9 counterexample: the extractor returns a truncated block's partial
content in exactly the same form as a complete block's content — the same
`some "<p>hi</p>"` for both inputs — so the truncated case is silently treated
like the complete one and no distinct truncation signal accompanies the
extractor's return value. -/
theorem c9_counterexample :
    extract_html "```html\n<p>hi</p>" = some "<p>hi</p>"
  ∧ extract_html "```html\n<p>hi</p>\n```" = some "<p>hi</p>"
  ∧ extract_html "```html\n<p>hi</p>" = extract_html "```html\n<p>hi</p>\n```" := by
  refine ⟨by decide, by decide, by decide⟩

/-- Claim C9 (amended): the extractor follows the three-tier precedence —
complete fenced block of the target kind, else unclosed fenced block (its
partial content returned, not null, but indistinguishable from a complete
block by the extractor itself), else the whole trimmed response when it
starts with a doctype or html root marker — and returns null when no tier
matches.  A truncation signal exists only separately, in the quality
evaluator's fence-balance check, which does flag the plain unclosed-block
input. -/
theorem c9_extraction_tiers :
    (∀ (r : String) (c : List Char), findCompleteBlock r.toList = some c →
        extract_html r = some (String.mk (pyStrip c)))
  ∧ (∀ (r : String) (c : List Char), findCompleteBlock r.toList = none →
        findTruncatedBlock r.toList = some c →
        extract_html r = some (String.mk (pyStrip c)))
  ∧ (∀ r : String, findCompleteBlock r.toList = none →
        findTruncatedBlock r.toList = none →
        startsWithHtmlMarker (pyStrip r.toList) = true →
        extract_html r = some (String.mk (pyStrip r.toList)))
  ∧ (∀ r : String, findCompleteBlock r.toList = none →
        findTruncatedBlock r.toList = none →
        startsWithHtmlMarker (pyStrip r.toList) = false →
        extract_html r = none)
  ∧ is_truncated "```html\n<p>hi</p>" = true := by
  refine ⟨?_, ?_, ?_, ?_, by decide⟩
  · intro r c h
    simp only [String.toList] at h
    simp [extract_html, h]
  · intro r c h1 h2
    simp only [String.toList] at h1 h2
    simp [extract_html, h1, h2]
  · intro r h1 h2 h3
    simp only [String.toList] at h1 h2 h3
    simp [extract_html, h1, h2, h3]
  · intro r h1 h2 h3
    simp only [String.toList] at h1 h2 h3
    simp [extract_html, h1, h2, h3]

/-- Claim C9 witness: each extraction tier exercised at a concrete input —
a complete block, an unclosed block (content returned, not null), a bare
document, an input matching no tier, and an empty fenced block (which the
complete pattern matches with an empty capture via backtracking). -/
theorem c9_extraction_tiers_witness :
    extract_html "```html\n<a>x</a>\n```" = some "<a>x</a>"
  ∧ extract_html "```html\n<a>x</a>" = some "<a>x</a>"
  ∧ extract_html "<html><a>x</a></html>" = some "<html><a>x</a></html>"
  ∧ extract_html "plain text" = none
  ∧ extract_html "```html\n\n```" = some "" :=
  ⟨((c9_extraction_tiers.1 "```html\n<a>x</a>\n```" "<a>x</a>".toList (by decide)).trans
      (by decide)),
   ((c9_extraction_tiers.2.1 "```html\n<a>x</a>" "<a>x</a>".toList (by decide)
      (by decide)).trans (by decide)),
   ((c9_extraction_tiers.2.2.1 "<html><a>x</a></html>" (by decide) (by decide)
      (by decide)).trans (by decide)),
   c9_extraction_tiers.2.2.2.1 "plain text" (by decide) (by decide) (by decide),
   ((c9_extraction_tiers.1 "```html\n\n```" [] (by decide)).trans (by decide))⟩

/-- Claim C10: when no HTML artifact can be extracted from the response —
the extractor returns nothing, or only the falsy empty string — the HTML code
evaluator returns a result with no scores whose pass flag is still true and
whose overall score is 0, instead of failing the evaluation. -/
theorem c10_no_html_keeps_passed :
    ∀ response : String,
      (extract_html response = none ∨ extract_html response = some "") →
      (html_evaluate response).scores = []
      ∧ (html_evaluate response).passed = true
      ∧ get_overall_score (html_evaluate response) = 0 := by
  intro r hx
  rcases hx with h | h
  · simp [html_evaluate, h, get_overall_score]
  · simp [html_evaluate, h, get_overall_score]

/-- Claim C10 witness: a plain-text response (no extraction at all) and a
bare `` ```html `` opener (which extracts the empty string) both keep
`passed = true` with no scores and overall score 0. -/
theorem c10_no_html_keeps_passed_witness :
    ((html_evaluate "hello").scores = []
      ∧ (html_evaluate "hello").passed = true
      ∧ get_overall_score (html_evaluate "hello") = 0)
    ∧ ((html_evaluate "```html\n").scores = []
      ∧ (html_evaluate "```html\n").passed = true
      ∧ get_overall_score (html_evaluate "```html\n") = 0) :=
  ⟨c10_no_html_keeps_passed "hello" (Or.inl (by decide)),
   c10_no_html_keeps_passed "```html\n" (Or.inr (by decide))⟩

end PraisonBench
